import Mathlib

/-!
Verification development for the `CodeAnalyzer` component of the
FYP_QUALITY_ASSURANCE repository (src/code_analyzer.py).

The component parses one Python source file into an abstract syntax tree and
extracts one record per function definition, with parameter names, decorator
names, a branch count ("complexity"), called names, and a derived priority
score.

We shallowly embed the fragment of the Python abstract-syntax-tree grammar
that the analyzer inspects as a tagged variant type `Node`, embed Python's
`ast.walk` (breadth-first traversal using a FIFO queue seeded with the root)
as `walk`, and translate each method of `CodeAnalyzer` into a Lean function
over this embedding.  Fields of the real grammar that the analyzer never
reads and that no claim touches (annotations, default expressions, type
comments, operator payloads) are not modelled; child order inside each node
follows the `_fields` order of the corresponding CPython node class.
-/

/-- Embedding of the fragment of the Python abstract-syntax-tree grammar that
`CodeAnalyzer` inspects.  The formal parameter list of a function definition,
with the slots of CPython's `arguments` node in field order: `posonlyargs`
are the positional-only parameters (those declared before a `/` marker),
`args` the plain positional parameters (what CPython stores in
`arguments.args`), `vararg`/`kwarg` the starred parameters, `kwonlyargs` the
keyword-only parameters.  Only the names are kept: the analyzer reads
`arg.arg` and nothing else of an `arg` node. -/
structure Arguments where
  posonlyargs : List String
  args : List String
  vararg : Option String
  kwonlyargs : List String
  kwarg : Option String
  deriving Repr, DecidableEq

/-- Tagged-variant embedding of the Python abstract-syntax-tree nodes the
analyzer can encounter.  One constructor per CPython node kind; each carries
the child fields in `_fields` order.  `lineno` is modelled on the two
definition kinds, the only nodes whose line number the analyzer reads. -/
inductive Node where
  | module (body : List Node)
  | functionDef (lineno : Nat) (name : String) (args : Arguments)
      (body : List Node) (decorator_list : List Node)
  | asyncFunctionDef (lineno : Nat) (name : String) (args : Arguments)
      (body : List Node) (decorator_list : List Node)
  | classDef (name : String) (body : List Node)
  | ifStmt (test : Node) (body : List Node) (orelse : List Node)
  | forStmt (target : Node) (iter : Node) (body : List Node) (orelse : List Node)
  | whileStmt (test : Node) (body : List Node) (orelse : List Node)
  | tryStmt (body : List Node) (handlers : List Node) (orelse : List Node)
      (finalbody : List Node)
  | exceptHandler (body : List Node)
  | withStmt (items : List Node) (body : List Node)
  | asyncForStmt (target : Node) (iter : Node) (body : List Node)
  | asyncWithStmt (items : List Node) (body : List Node)
  | exprStmt (value : Node)
  | callExpr (func : Node) (args : List Node)
  | nameExpr (id : String)
  | attributeExpr (value : Node) (attr : String)
  | lambdaExpr (body : Node)
  | constantExpr
  deriving Repr

namespace Node

/-- The child nodes of a node, in the field order CPython's
`ast.iter_child_nodes` yields them. -/
def children : Node → List Node
  | module body => body
  | functionDef _ _ _ body decorator_list => body ++ decorator_list
  | asyncFunctionDef _ _ _ body decorator_list => body ++ decorator_list
  | classDef _ body => body
  | ifStmt test body orelse => test :: (body ++ orelse)
  | forStmt target iter body orelse => target :: iter :: (body ++ orelse)
  | whileStmt test body orelse => test :: (body ++ orelse)
  | tryStmt body handlers orelse finalbody => body ++ handlers ++ orelse ++ finalbody
  | exceptHandler body => body
  | withStmt items body => items ++ body
  | asyncForStmt target iter body => target :: iter :: body
  | asyncWithStmt items body => items ++ body
  | exprStmt value => [value]
  | callExpr func args => func :: args
  | nameExpr _ => []
  | attributeExpr value _ => [value]
  | lambdaExpr body => [body]
  | constantExpr => []

mutual

/-- Number of nodes in the tree rooted at `n` (the node itself included). -/
def size : Node → Nat
  | module body => 1 + sizeList body
  | functionDef _ _ _ body decorator_list => 1 + sizeList body + sizeList decorator_list
  | asyncFunctionDef _ _ _ body decorator_list => 1 + sizeList body + sizeList decorator_list
  | classDef _ body => 1 + sizeList body
  | ifStmt test body orelse => 1 + size test + sizeList body + sizeList orelse
  | forStmt target iter body orelse =>
      1 + size target + size iter + sizeList body + sizeList orelse
  | whileStmt test body orelse => 1 + size test + sizeList body + sizeList orelse
  | tryStmt body handlers orelse finalbody =>
      1 + sizeList body + sizeList handlers + sizeList orelse + sizeList finalbody
  | exceptHandler body => 1 + sizeList body
  | withStmt items body => 1 + sizeList items + sizeList body
  | asyncForStmt target iter body => 1 + size target + size iter + sizeList body
  | asyncWithStmt items body => 1 + sizeList items + sizeList body
  | exprStmt value => 1 + size value
  | callExpr func args => 1 + size func + sizeList args
  | nameExpr _ => 1
  | attributeExpr value _ => 1 + size value
  | lambdaExpr body => 1 + size body
  | constantExpr => 1

/-- Total number of nodes in a forest. -/
def sizeList : List Node → Nat
  | [] => 0
  | n :: rest => size n + sizeList rest

end

theorem sizeList_append (a b : List Node) :
    sizeList (a ++ b) = sizeList a + sizeList b := by
  induction a with
  | nil => simp [sizeList]
  | cons n rest ih => simp [sizeList, ih]; omega

theorem size_eq_children (n : Node) : size n = 1 + sizeList n.children := by
  cases n <;> simp [size, children, sizeList, sizeList_append] <;> omega

/-- Breadth-first traversal of a forest held in a FIFO queue: the head of the
queue is visited and its children are enqueued at the back.  This is exactly
the loop of CPython's `ast.walk`. -/
def walkAux : List Node → List Node
  | [] => []
  | n :: rest => n :: walkAux (rest ++ n.children)
termination_by l => sizeList l
decreasing_by
  simp [sizeList, sizeList_append]
  have h := size_eq_children n
  omega

/-- Embedding of `ast.walk(node)`: every node of the tree rooted at `node`,
in breadth-first order, the root first. -/
def walk (n : Node) : List Node := walkAux [n]

mutual

/-- Specification-side structural count: the number of nodes in the tree
rooted at `n` (the root included) satisfying `p`.  Defined by recursion on
the tree, independently of the breadth-first `walk`. -/
def countP (p : Node → Bool) : Node → Nat
  | module body => cond (p (module body)) 1 0 + countListP p body
  | functionDef ln nm a body dl =>
      cond (p (functionDef ln nm a body dl)) 1 0 + countListP p body + countListP p dl
  | asyncFunctionDef ln nm a body dl =>
      cond (p (asyncFunctionDef ln nm a body dl)) 1 0 + countListP p body + countListP p dl
  | classDef nm body => cond (p (classDef nm body)) 1 0 + countListP p body
  | ifStmt test body orelse =>
      cond (p (ifStmt test body orelse)) 1 0 + countP p test + countListP p body +
        countListP p orelse
  | forStmt target iter body orelse =>
      cond (p (forStmt target iter body orelse)) 1 0 + countP p target + countP p iter +
        countListP p body + countListP p orelse
  | whileStmt test body orelse =>
      cond (p (whileStmt test body orelse)) 1 0 + countP p test + countListP p body +
        countListP p orelse
  | tryStmt body handlers orelse finalbody =>
      cond (p (tryStmt body handlers orelse finalbody)) 1 0 + countListP p body +
        countListP p handlers + countListP p orelse + countListP p finalbody
  | exceptHandler body => cond (p (exceptHandler body)) 1 0 + countListP p body
  | withStmt items body =>
      cond (p (withStmt items body)) 1 0 + countListP p items + countListP p body
  | asyncForStmt target iter body =>
      cond (p (asyncForStmt target iter body)) 1 0 + countP p target + countP p iter +
        countListP p body
  | asyncWithStmt items body =>
      cond (p (asyncWithStmt items body)) 1 0 + countListP p items + countListP p body
  | exprStmt value => cond (p (exprStmt value)) 1 0 + countP p value
  | callExpr func args => cond (p (callExpr func args)) 1 0 + countP p func + countListP p args
  | nameExpr id => cond (p (nameExpr id)) 1 0
  | attributeExpr value attr => cond (p (attributeExpr value attr)) 1 0 + countP p value
  | lambdaExpr body => cond (p (lambdaExpr body)) 1 0 + countP p body
  | constantExpr => cond (p constantExpr) 1 0

/-- Structural count of nodes satisfying `p` over a forest. -/
def countListP (p : Node → Bool) : List Node → Nat
  | [] => 0
  | n :: rest => countP p n + countListP p rest

end

/-- Does the node match `isinstance(node, (ast.FunctionDef, ast.AsyncFunctionDef))`? -/
def isDefNode : Node → Bool
  | functionDef .. => true
  | asyncFunctionDef .. => true
  | _ => false

/-- Does the node match `isinstance(n, (ast.If, ast.For, ast.While, ast.Try, ast.With))`? -/
def isBranchNode : Node → Bool
  | ifStmt .. => true
  | forStmt .. => true
  | whileStmt .. => true
  | tryStmt .. => true
  | withStmt .. => true
  | _ => false

end Node

/-- One record per function or asynchronous-function definition, as built by
`CodeAnalyzer.extract_functions`.  The `node` entry of the Python dictionary
(the definition node itself) is not carried: every claim is about the other
fields, and carrying the node would only duplicate the key used to build the
record. -/
structure FunctionRecord where
  name : String
  args : List String
  is_async : Bool
  decorators : List String
  complexity : Nat
  calls : List String
  line : Nat
  deriving Repr, DecidableEq

/-- The failure conditions of `CodeAnalyzer.__init__`: `open` raises an
`IOError`-class (`OSError`) exception when the path cannot be read, and
`ast.parse` raises a `SyntaxError` when the text is not valid Python. -/
inductive AnalyzeError where
  | fileAccessError
  | parseError
  deriving Repr, DecidableEq

/-- Embedding of a constructed `CodeAnalyzer` instance: the fields assigned
by `__init__` once both the read and the parse have succeeded. -/
structure CodeAnalyzer where
  file_path : String
  code : String
  tree : Node

namespace CodeAnalyzer

/-- Embedding of `CodeAnalyzer.__init__(file_path)`.  Reading the file and
parsing it are performed by the Python standard library (`open`/`read` and
`ast.parse`), which is outside this repository; they enter the embedding as
oracle parameters: `readFile` returns the file's text or `none` when the
path does not exist or is unreadable, `parse` returns the syntax tree or
`none` when the text is not syntactically valid.  Either failure propagates
as the corresponding exception class and no instance is produced. -/
def init (readFile : String → Option String) (parse : String → Option Node)
    (file_path : String) : Except AnalyzeError CodeAnalyzer :=
  match readFile file_path with
  | none => .error .fileAccessError
  | some code =>
    match parse code with
    | none => .error .parseError
    | some tree => .ok { file_path := file_path, code := code, tree := tree }

/-- Embedding of `CodeAnalyzer._get_decorator_name(decorator_node)` (the
leading underscore is dropped: Lean names starting with an underscore are
avoided). -/
def get_decorator_name : Node → String
  | .nameExpr id => id
  | .attributeExpr _ attr => attr
  | _ => ""

/-- Embedding of `CodeAnalyzer._count_branches(node)`: walk the subtree and
count the nodes that are a conditional, for-loop, while-loop, try block or
with block. -/
def count_branches (node : Node) : Nat :=
  ((Node.walk node).filter Node.isBranchNode).length

/-- Callee-name resolution inside `CodeAnalyzer._extract_calls`: a call
through a bare name yields that name, a call through an attribute access
yields the trailing attribute, any other node (including a call through any
other callable expression) yields nothing. -/
def callNameOf : Node → Option String
  | .callExpr (.nameExpr id) _ => some id
  | .callExpr (.attributeExpr _ attr) _ => some attr
  | _ => none

/-- Embedding of `CodeAnalyzer._extract_calls(node)`: walk the subtree and
collect, in visit order, the resolvable callee names of all call nodes. -/
def extract_calls (node : Node) : List String :=
  (Node.walk node).filterMap callNameOf

/-- The record `extract_functions` appends for a node when the node is a
function or asynchronous-function definition. -/
def recordOfNode : Node → Option FunctionRecord
  | .functionDef lineno name a body decorator_list =>
      some { name := name
             args := a.args
             is_async := false
             decorators := decorator_list.map get_decorator_name
             complexity := count_branches (.functionDef lineno name a body decorator_list)
             calls := extract_calls (.functionDef lineno name a body decorator_list)
             line := lineno }
  | .asyncFunctionDef lineno name a body decorator_list =>
      some { name := name
             args := a.args
             is_async := true
             decorators := decorator_list.map get_decorator_name
             complexity := count_branches (.asyncFunctionDef lineno name a body decorator_list)
             calls := extract_calls (.asyncFunctionDef lineno name a body decorator_list)
             line := lineno }
  | _ => none

/-- Embedding of `CodeAnalyzer.extract_functions()`: walk the whole tree and
append one record per function or asynchronous-function definition node, in
visit order. -/
def extract_functions (self : CodeAnalyzer) : List FunctionRecord :=
  (Node.walk self.tree).filterMap recordOfNode

/-- The method `extract_functions` as a state transformer on the instance:
its body only reads `self.tree` and local variables and assigns nothing to
`self`, so the instance after the call is the instance before it. -/
def extractFunctionsM (self : CodeAnalyzer) : List FunctionRecord × CodeAnalyzer :=
  (extract_functions self, self)

/-- Embedding of `CodeAnalyzer.calculate_priority(func)`: start from the
complexity, add 2 for an asynchronous function, add 1 when there are more
than 3 parameters. -/
def calculate_priority (func : FunctionRecord) : Nat :=
  let priority := func.complexity
  let priority := if func.is_async then priority + 2 else priority
  let priority := if func.args.length > 3 then priority + 1 else priority
  priority

end CodeAnalyzer

/-- Specification-side count of function and asynchronous-function
definition nodes in a tree, by structural recursion. -/
def countDefNodes (n : Node) : Nat := Node.countP Node.isDefNode n

/-- Specification-side count of branch-bearing nodes (conditional, for-loop,
while-loop, try block, with block) in a tree, by structural recursion. -/
def countBranchNodes (n : Node) : Nat := Node.countP Node.isBranchNode n

/-- The decorator expressions attached to a definition node. -/
def Node.decoratorList : Node → List Node
  | functionDef _ _ _ _ decorator_list => decorator_list
  | asyncFunctionDef _ _ _ _ decorator_list => decorator_list
  | _ => []

/-- The names of all positional parameters of a definition node: the
positional-only ones (declared before a `/` marker) followed by the plain
positional ones.  This follows the specification's words for the
`parameters` field ("ordered sequence of positional parameter names"). -/
def Node.positionalParams : Node → List String
  | functionDef _ _ a _ _ => a.posonlyargs ++ a.args
  | asyncFunctionDef _ _ a _ _ => a.posonlyargs ++ a.args
  | _ => []

/-- The names in the `args` slot of a definition node's parameter list: the
plain positional parameters only, positional-only parameters excluded.
This is what the code's `[arg.arg for arg in node.args.args]` reads. -/
def Node.plainPositionalParams : Node → List String
  | functionDef _ _ a _ _ => a.args
  | asyncFunctionDef _ _ a _ _ => a.args
  | _ => []

/-- An empty formal parameter list. -/
def noParams : Arguments :=
  { posonlyargs := [], args := [], vararg := none, kwonlyargs := [], kwarg := none }

/-- An analyzer instance holding a given tree, standing for an instance on
which construction succeeded. -/
def analyzerOn (tree : Node) : CodeAnalyzer :=
  { file_path := "example.py", code := "", tree := tree }

/-- A module with four definitions at three nesting depths, two of them
sharing the name `f`: a top-level `f`, an `f` inside the body of class `C`,
a top-level `g`, and an `h` nested inside `g`. -/
def dupNamesTree : Node :=
  Node.module
    [Node.functionDef 1 "f" noParams [Node.exprStmt Node.constantExpr] [],
     Node.classDef "C"
       [Node.functionDef 4 "f" noParams [Node.exprStmt Node.constantExpr] []],
     Node.functionDef 7 "g" noParams
       [Node.functionDef 8 "h" noParams [Node.exprStmt Node.constantExpr] []] []]

/-- A function whose body holds exactly one conditional, one for-loop, and
one nested function that itself holds one while-loop. -/
def nestedBranchFn : Node :=
  Node.functionDef 1 "outer" noParams
    [Node.ifStmt Node.constantExpr [Node.exprStmt Node.constantExpr] [],
     Node.forStmt (Node.nameExpr "i") Node.constantExpr [Node.exprStmt Node.constantExpr] [],
     Node.functionDef 6 "inner" noParams
       [Node.whileStmt Node.constantExpr [Node.exprStmt Node.constantExpr] []] []]
    []

/-- A synchronous record with complexity 2 and five parameters. -/
def syncFiveParamRecord : FunctionRecord :=
  { name := "f", args := ["a", "b", "c", "d", "e"], is_async := false,
    decorators := [], complexity := 2, calls := [], line := 1 }

/-- An asynchronous record with complexity 0 and one parameter. -/
def asyncOneParamRecord : FunctionRecord :=
  { name := "g", args := ["x"], is_async := true,
    decorators := [], complexity := 0, calls := [], line := 2 }

/-- A function whose body calls `helper()`, then `obj.method()`, then
`(get_fn())()`: the worked example of the call-extraction contract. -/
def fnCallsExample : Node :=
  Node.functionDef 1 "f" noParams
    [Node.exprStmt (Node.callExpr (Node.nameExpr "helper") []),
     Node.exprStmt (Node.callExpr (Node.attributeExpr (Node.nameExpr "obj") "method") []),
     Node.exprStmt (Node.callExpr (Node.callExpr (Node.nameExpr "get_fn") []) [])]
    []

/-- A module holding a function decorated with the bare name `foo` and the
attribute access `bar.baz`, followed by an undecorated function. -/
def decoratedTree : Node :=
  Node.module
    [Node.functionDef 2 "f" noParams [Node.exprStmt Node.constantExpr]
       [Node.nameExpr "foo", Node.attributeExpr (Node.nameExpr "bar") "baz"],
     Node.functionDef 5 "g" noParams [Node.exprStmt Node.constantExpr] []]

/-- A definition with plain positional parameters `a` and `b`, a variadic
`*rest`, a keyword-only parameter `k`, and a keyword variadic `**kw`. -/
def mixedParamsFn : Node :=
  Node.functionDef 1 "f"
    { posonlyargs := [], args := ["a", "b"], vararg := some "rest",
      kwonlyargs := ["k"], kwarg := some "kw" }
    [Node.exprStmt Node.constantExpr] []

/-- A definition `f(a, /, b)` with the positional-only parameter `a` and
the plain positional parameter `b`. -/
def posonlyFn : Node :=
  Node.functionDef 1 "f"
    { posonlyargs := ["a"], args := ["b"], vararg := none,
      kwonlyargs := [], kwarg := none }
    [Node.exprStmt Node.constantExpr] []

/-- An asynchronous function whose body holds an asynchronous for-loop, an
asynchronous with-block, and one plain conditional. -/
def asyncLoopFn : Node :=
  Node.asyncFunctionDef 1 "f" noParams
    [Node.asyncForStmt (Node.nameExpr "x") Node.constantExpr [Node.exprStmt Node.constantExpr],
     Node.asyncWithStmt [Node.constantExpr] [Node.exprStmt Node.constantExpr],
     Node.ifStmt Node.constantExpr [Node.exprStmt Node.constantExpr] []]
    []

/-- A module whose only callables are lambda expressions: one nested inside
another, one called immediately. -/
def lambdaOnlyTree : Node :=
  Node.module
    [Node.exprStmt (Node.lambdaExpr (Node.lambdaExpr Node.constantExpr)),
     Node.exprStmt (Node.callExpr (Node.lambdaExpr Node.constantExpr) [])]

namespace Node

theorem walkAux_nil : walkAux [] = [] := by
  simp [walkAux]

theorem walkAux_cons (n : Node) (rest : List Node) :
    walkAux (n :: rest) = n :: walkAux (rest ++ n.children) := by
  rw [walkAux]

theorem countListP_append (p : Node → Bool) (a b : List Node) :
    countListP p (a ++ b) = countListP p a + countListP p b := by
  induction a with
  | nil => simp [countListP]
  | cons n rest ih => simp [countListP, ih]; omega

theorem countP_eq_children (p : Node → Bool) (n : Node) :
    countP p n = cond (p n) 1 0 + countListP p n.children := by
  cases n <;> simp [countP, children, countListP, countListP_append] <;> omega

/-- The breadth-first queue traversal visits each node of the queued forest
exactly once: counting the visited nodes satisfying `p` agrees with the
structural count over the forest. -/
theorem walkAux_countP (p : Node → Bool) (l : List Node) :
    ((walkAux l).filter p).length = countListP p l := by
  induction l using walkAux.induct with
  | case1 => simp [walkAux_nil, countListP]
  | case2 n rest ih =>
    rw [walkAux_cons]
    rcases h : p n with _ | _ <;>
      simp [List.filter, h, ih, countListP_append, countListP,
        countP_eq_children p n] <;> omega

/-- Counting over `walk` agrees with the structural count over the tree. -/
theorem walk_countP (p : Node → Bool) (n : Node) :
    ((walk n).filter p).length = countP p n := by
  rw [walk, walkAux_countP, countListP, countListP]; omega

end Node

theorem recordOfNode_isSome (n : Node) :
    (CodeAnalyzer.recordOfNode n).isSome = Node.isDefNode n := by
  cases n <;> rfl

theorem length_filterMap_recordOfNode (l : List Node) :
    (l.filterMap CodeAnalyzer.recordOfNode).length =
      (l.filter Node.isDefNode).length := by
  induction l with
  | nil => rfl
  | cons n rest ih =>
    rcases hn : CodeAnalyzer.recordOfNode n with _ | r <;>
      have hd := recordOfNode_isSome n <;>
      rw [hn] at hd <;>
      simp [List.filterMap_cons, List.filter_cons, hn, ← hd, ih]

theorem filterMap_recordOfNode_map {α : Type} (proj : FunctionRecord → α)
    (g : Node → α)
    (h : ∀ n r, CodeAnalyzer.recordOfNode n = some r → proj r = g n)
    (l : List Node) :
    (l.filterMap CodeAnalyzer.recordOfNode).map proj =
      (l.filter Node.isDefNode).map g := by
  induction l with
  | nil => rfl
  | cons n rest ih =>
    rcases hn : CodeAnalyzer.recordOfNode n with _ | r <;>
      have hd := recordOfNode_isSome n <;>
      rw [hn] at hd <;>
      simp [List.filterMap_cons, List.filter_cons, hn, ← hd, ih]
    exact h n r hn

theorem recordOfNode_complexity (n : Node) (r : FunctionRecord)
    (h : CodeAnalyzer.recordOfNode n = some r) :
    r.complexity = countBranchNodes n := by
  cases n <;> simp [CodeAnalyzer.recordOfNode] at h <;>
    rw [← h] <;>
    simp [CodeAnalyzer.count_branches, countBranchNodes, Node.walk_countP]

theorem recordOfNode_calls (n : Node) (r : FunctionRecord)
    (h : CodeAnalyzer.recordOfNode n = some r) :
    r.calls = CodeAnalyzer.extract_calls n := by
  cases n <;> simp [CodeAnalyzer.recordOfNode] at h <;> rw [← h]

theorem recordOfNode_decorators (n : Node) (r : FunctionRecord)
    (h : CodeAnalyzer.recordOfNode n = some r) :
    r.decorators = n.decoratorList.map CodeAnalyzer.get_decorator_name := by
  cases n <;> simp [CodeAnalyzer.recordOfNode] at h <;> rw [← h] <;>
    simp [Node.decoratorList]

theorem recordOfNode_args (n : Node) (r : FunctionRecord)
    (h : CodeAnalyzer.recordOfNode n = some r) :
    r.args = n.plainPositionalParams := by
  cases n <;> simp [CodeAnalyzer.recordOfNode] at h <;> rw [← h] <;>
    simp [Node.plainPositionalParams]

/-- C1: `extract_functions` appends exactly one record per function or
asynchronous-function definition node at every nesting depth, duplicate
names included, so the length of its result is the structural count of such
definition nodes.  On the sample module holding a top-level `f`, an `f`
inside a class body, a top-level `g` and an `h` nested inside `g`, the four
records (in visit order) are those four definitions. -/
theorem extract_functions_one_record_per_def :
    (∀ a : CodeAnalyzer, a.extract_functions.length = countDefNodes a.tree) ∧
    (analyzerOn dupNamesTree).extract_functions.map FunctionRecord.name =
      ["f", "g", "f", "h"] ∧
    countDefNodes dupNamesTree = 4 := by
  refine ⟨fun a => ?_, ?_, ?_⟩
  · rw [CodeAnalyzer.extract_functions, length_filterMap_recordOfNode,
      Node.walk_countP, countDefNodes]
  · simp [CodeAnalyzer.extract_functions, analyzerOn, dupNamesTree, noParams,
      Node.walk, Node.walkAux_cons, Node.walkAux_nil, Node.children,
      CodeAnalyzer.recordOfNode, List.filterMap_cons]
  · simp [countDefNodes, dupNamesTree, noParams, Node.countP, Node.countListP,
      Node.isDefNode]

/-- C2: the `complexity` of every extracted record is the number of nodes
below its definition that are a conditional, for-loop, while-loop, try
block, or with block, with the walk crossing nested-function boundaries; on
the sample function holding one conditional, one for-loop, and a nested
function holding one while-loop, the outer record's complexity is 3 (and the
nested record's is 1). -/
theorem record_complexity_counts_branch_descendants :
    (∀ a : CodeAnalyzer, a.extract_functions.map FunctionRecord.complexity =
        ((Node.walk a.tree).filter Node.isDefNode).map countBranchNodes) ∧
    (analyzerOn (Node.module [nestedBranchFn])).extract_functions.map
        FunctionRecord.complexity = [3, 1] := by
  refine ⟨fun a => ?_, ?_⟩
  · exact filterMap_recordOfNode_map _ _ recordOfNode_complexity _
  · simp [CodeAnalyzer.extract_functions, analyzerOn, nestedBranchFn, noParams,
      Node.walk, Node.walkAux_cons, Node.walkAux_nil, Node.children,
      CodeAnalyzer.recordOfNode, CodeAnalyzer.count_branches, Node.isBranchNode,
      List.filterMap_cons, List.filter]

/-- C3: `calculate_priority` is a pure total function computing exactly
complexity, plus 2 for an asynchronous record, plus 1 when there are more
than 3 parameters (exactly 1, however far above 3 the count is); a
synchronous record with complexity 2 and five parameters scores 3, an
asynchronous record with complexity 0 and one parameter scores 2. -/
theorem calculate_priority_formula :
    (∀ r : FunctionRecord, CodeAnalyzer.calculate_priority r =
        r.complexity + (if r.is_async then 2 else 0) +
          (if r.args.length > 3 then 1 else 0)) ∧
    CodeAnalyzer.calculate_priority syncFiveParamRecord = 3 ∧
    CodeAnalyzer.calculate_priority asyncOneParamRecord = 2 := by
  refine ⟨fun r => ?_, by decide, by decide⟩
  rcases hb : r.is_async with _ | _ <;>
    by_cases h : r.args.length > 3 <;>
    simp [CodeAnalyzer.calculate_priority, hb, h]

/-- C4 as written is false on the code: for the function calling `helper()`,
`obj.method()` and `(get_fn())()`, the extracted record's `calls` is not
`["helper", "method"]` (the walk also visits the inner call `get_fn()`,
whose callee is a bare name). -/
theorem record_calls_example_counterexample :
    (analyzerOn (Node.module [fnCallsExample])).extract_functions.map
        FunctionRecord.calls ≠ [["helper", "method"]] := by
  have h : (analyzerOn (Node.module [fnCallsExample])).extract_functions.map
      FunctionRecord.calls = [["helper", "method", "get_fn"]] := by
    simp [CodeAnalyzer.extract_functions, analyzerOn, fnCallsExample, noParams,
      Node.walk, Node.walkAux_cons, Node.walkAux_nil, Node.children,
      CodeAnalyzer.recordOfNode, CodeAnalyzer.extract_calls,
      CodeAnalyzer.callNameOf, List.filterMap_cons]
  rw [h]; decide

/-- C4 (amended): the `calls` of every extracted record is the sequence, in
walk-visit order, of resolvable callee names of all call nodes below the
definition: a call through a bare name contributes that name, a call through
an attribute access contributes the trailing attribute name, and any other
call form contributes nothing itself — but its subexpressions are still
visited.  Hence the function calling `helper()`, `obj.method()` and
`(get_fn())()` has calls `["helper", "method", "get_fn"]`: the outer call of
`(get_fn())()` is skipped, while the inner call `get_fn()` is a call through
a bare name and contributes `"get_fn"`. -/
theorem record_calls_callee_resolution :
    (∀ a : CodeAnalyzer, a.extract_functions.map FunctionRecord.calls =
        ((Node.walk a.tree).filter Node.isDefNode).map CodeAnalyzer.extract_calls) ∧
    (∀ n : Node, CodeAnalyzer.extract_calls n =
        (Node.walk n).filterMap CodeAnalyzer.callNameOf) ∧
    (∀ (id : String) (args : List Node),
        CodeAnalyzer.callNameOf (Node.callExpr (Node.nameExpr id) args) = some id) ∧
    (∀ (v : Node) (attr : String) (args : List Node),
        CodeAnalyzer.callNameOf (Node.callExpr (Node.attributeExpr v attr) args) =
          some attr) ∧
    (∀ (f : Node) (inner outer : List Node),
        CodeAnalyzer.callNameOf (Node.callExpr (Node.callExpr f inner) outer) = none) ∧
    CodeAnalyzer.extract_calls fnCallsExample = ["helper", "method", "get_fn"] := by
  refine ⟨fun a => filterMap_recordOfNode_map _ _ recordOfNode_calls _,
    fun n => rfl, fun id args => rfl, fun v attr args => rfl,
    fun f inner outer => rfl, ?_⟩
  simp [CodeAnalyzer.extract_calls, fnCallsExample, noParams, Node.walk,
    Node.walkAux_cons, Node.walkAux_nil, Node.children, CodeAnalyzer.callNameOf,
    List.filterMap_cons]

/-- C5: the `decorators` of every extracted record has one entry per
decorator expression attached to the definition, in order: a bare name
contributes its identifier, an attribute access contributes the trailing
attribute name, and any other decorator expression contributes the empty
string; a function with no decorators yields the empty sequence, and a
function decorated with `foo` and `bar.baz` yields `["foo", "baz"]`. -/
theorem record_decorators_resolution :
    (∀ a : CodeAnalyzer, a.extract_functions.map FunctionRecord.decorators =
        ((Node.walk a.tree).filter Node.isDefNode).map
          (fun n => n.decoratorList.map CodeAnalyzer.get_decorator_name)) ∧
    (∀ id : String, CodeAnalyzer.get_decorator_name (Node.nameExpr id) = id) ∧
    (∀ (v : Node) (attr : String),
        CodeAnalyzer.get_decorator_name (Node.attributeExpr v attr) = attr) ∧
    (∀ (f : Node) (args : List Node),
        CodeAnalyzer.get_decorator_name (Node.callExpr f args) = "") ∧
    (analyzerOn decoratedTree).extract_functions.map FunctionRecord.decorators =
      [["foo", "baz"], []] := by
  refine ⟨fun a => filterMap_recordOfNode_map _ _ recordOfNode_decorators _,
    fun id => rfl, fun v attr => rfl, fun f args => rfl, ?_⟩
  simp [CodeAnalyzer.extract_functions, analyzerOn, decoratedTree, noParams,
    Node.walk, Node.walkAux_cons, Node.walkAux_nil, Node.children,
    CodeAnalyzer.recordOfNode, CodeAnalyzer.get_decorator_name,
    List.filterMap_cons]

/-- C6: construction on an unreadable path fails with the file-access error,
construction on an unparseable file fails with the parse error, and in both
cases the failure propagates with no instance (hence no partial record list)
produced; when both the read and the parse succeed the instance holds
exactly the path, the text, and the parsed tree.  `extract_functions` is a
total function of the instance, so once construction has succeeded it
cannot fail. -/
theorem init_error_propagation :
    (∀ (readFile : String → Option String) (parse : String → Option Node)
        (path : String), readFile path = none →
        CodeAnalyzer.init readFile parse path = .error .fileAccessError) ∧
    (∀ (readFile : String → Option String) (parse : String → Option Node)
        (path code : String), readFile path = some code → parse code = none →
        CodeAnalyzer.init readFile parse path = .error .parseError) ∧
    (∀ (readFile : String → Option String) (parse : String → Option Node)
        (path code : String) (tree : Node),
        readFile path = some code → parse code = some tree →
        CodeAnalyzer.init readFile parse path =
          .ok { file_path := path, code := code, tree := tree }) ∧
    (∀ a : CodeAnalyzer, ∃ records, a.extract_functions = records) := by
  refine ⟨fun readFile parse path h => ?_,
    fun readFile parse path code h1 h2 => ?_,
    fun readFile parse path code tree h1 h2 => ?_,
    fun a => ⟨a.extract_functions, rfl⟩⟩
  · simp [CodeAnalyzer.init, h]
  · simp [CodeAnalyzer.init, h1, h2]
  · simp [CodeAnalyzer.init, h1, h2]

/-- Witness for `init_error_propagation` at concrete oracles: a missing
file, a file that does not parse, and a file that reads and parses. -/
theorem init_error_propagation_witness :
    CodeAnalyzer.init (fun _ => none) (fun _ => none) "missing.py" =
      .error .fileAccessError ∧
    CodeAnalyzer.init (fun _ => some "def f(") (fun _ => none) "broken.py" =
      .error .parseError ∧
    CodeAnalyzer.init (fun _ => some "") (fun _ => some (Node.module []))
        "empty.py" =
      .ok { file_path := "empty.py", code := "", tree := Node.module [] } :=
  ⟨init_error_propagation.1 (fun _ => none) (fun _ => none) "missing.py" rfl,
   init_error_propagation.2.1 (fun _ => some "def f(") (fun _ => none)
     "broken.py" "def f(" rfl rfl,
   init_error_propagation.2.2.1 (fun _ => some "") (fun _ => some (Node.module []))
     "empty.py" "" (Node.module []) rfl rfl⟩

/-- C7: `extract_functions` reads but never mutates the instance: as a state
transformer it returns the instance unchanged, so calling it twice on the
same instance yields structurally identical record sequences. -/
theorem extract_functions_idempotent :
    ∀ a : CodeAnalyzer,
      (CodeAnalyzer.extractFunctionsM a).2 = a ∧
      (CodeAnalyzer.extractFunctionsM (CodeAnalyzer.extractFunctionsM a).2).1 =
        (CodeAnalyzer.extractFunctionsM a).1 :=
  fun _ => ⟨rfl, rfl⟩

/-- C8 as written is false on the code: for the definition `f(a, /, b)` the
positional parameter names are `["a", "b"]`, but `a` lives in the
`posonlyargs` slot of the parameter list, which the code's
`[arg.arg for arg in node.args.args]` read never touches, so the extracted
record's `parameters` is `["b"]`. -/
theorem record_args_posonly_counterexample :
    posonlyFn.positionalParams = ["a", "b"] ∧
    (analyzerOn (Node.module [posonlyFn])).extract_functions.map
        FunctionRecord.args = [["b"]] ∧
    (analyzerOn (Node.module [posonlyFn])).extract_functions.map
        FunctionRecord.args ≠ [posonlyFn.positionalParams] := by
  have h : (analyzerOn (Node.module [posonlyFn])).extract_functions.map
      FunctionRecord.args = [["b"]] := by
    simp [CodeAnalyzer.extract_functions, analyzerOn, posonlyFn,
      Node.walk, Node.walkAux_cons, Node.walkAux_nil, Node.children,
      CodeAnalyzer.recordOfNode, List.filterMap_cons]
  refine ⟨by simp [posonlyFn, Node.positionalParams], h, ?_⟩
  rw [h]; simp [posonlyFn, Node.positionalParams]

/-- C8 (amended): the `parameters` field of every extracted record is the
ordered sequence of the names in the `args` slot of the definition's
parameter list — the plain positional parameters, in declaration order;
positional-only parameters (declared before a `/` marker) as well as
keyword-only, variadic and keyword-variadic parameters are not captured, as
the sample definitions `f(a, b, *rest, k, **kw)` and `f(a, /, b)` show. -/
theorem record_args_plain_positional_params :
    (∀ a : CodeAnalyzer, a.extract_functions.map FunctionRecord.args =
        ((Node.walk a.tree).filter Node.isDefNode).map Node.plainPositionalParams) ∧
    (analyzerOn (Node.module [mixedParamsFn])).extract_functions.map
        FunctionRecord.args = [["a", "b"]] ∧
    (analyzerOn (Node.module [posonlyFn])).extract_functions.map
        FunctionRecord.args = [["b"]] := by
  refine ⟨fun a => filterMap_recordOfNode_map _ _ recordOfNode_args _, ?_, ?_⟩
  · simp [CodeAnalyzer.extract_functions, analyzerOn, mixedParamsFn,
      Node.walk, Node.walkAux_cons, Node.walkAux_nil, Node.children,
      CodeAnalyzer.recordOfNode, List.filterMap_cons]
  · simp [CodeAnalyzer.extract_functions, analyzerOn, posonlyFn,
      Node.walk, Node.walkAux_cons, Node.walkAux_nil, Node.children,
      CodeAnalyzer.recordOfNode, List.filterMap_cons]

/-- C9: only the five plain node kinds count toward complexity: an
asynchronous for-loop or with-block contributes 0 where its synchronous
counterpart with the same children contributes 1, and an asynchronous
function holding one asynchronous for-loop, one asynchronous with-block and
one plain conditional has complexity 1. -/
theorem async_loops_contribute_zero :
    (∀ (target iter : Node) (body : List Node),
        CodeAnalyzer.count_branches (Node.asyncForStmt target iter body) + 1 =
          CodeAnalyzer.count_branches (Node.forStmt target iter body [])) ∧
    (∀ (items body : List Node),
        CodeAnalyzer.count_branches (Node.asyncWithStmt items body) + 1 =
          CodeAnalyzer.count_branches (Node.withStmt items body)) ∧
    (∀ (target iter : Node) (body : List Node),
        Node.isBranchNode (Node.asyncForStmt target iter body) = false) ∧
    (∀ (items body : List Node),
        Node.isBranchNode (Node.asyncWithStmt items body) = false) ∧
    (analyzerOn (Node.module [asyncLoopFn])).extract_functions.map
        FunctionRecord.complexity = [1] := by
  refine ⟨fun target iter body => ?_, fun items body => ?_,
    fun target iter body => rfl, fun items body => rfl, ?_⟩
  · simp [CodeAnalyzer.count_branches, Node.walk_countP, Node.countP,
      Node.isBranchNode, Node.countListP]
    omega
  · simp [CodeAnalyzer.count_branches, Node.walk_countP, Node.countP,
      Node.isBranchNode, Node.countListP]
    omega
  · simp [CodeAnalyzer.extract_functions, analyzerOn, asyncLoopFn, noParams,
      Node.walk, Node.walkAux_cons, Node.walkAux_nil, Node.children,
      CodeAnalyzer.recordOfNode, CodeAnalyzer.count_branches, Node.isBranchNode,
      List.filterMap_cons, List.filter]

/-- C10: lambda expressions are never extracted as records at any depth:
the extractor matches only the two named definition node kinds, so wrapping
a tree in a lambda node adds no record, and a module whose only callables
are lambdas yields the empty record list. -/
theorem lambdas_never_extracted :
    (∀ b : Node, CodeAnalyzer.recordOfNode (Node.lambdaExpr b) = none) ∧
    (∀ (path code : String) (b : Node),
        CodeAnalyzer.extract_functions
            { file_path := path, code := code, tree := Node.lambdaExpr b } =
          CodeAnalyzer.extract_functions
            { file_path := path, code := code, tree := b }) ∧
    (analyzerOn lambdaOnlyTree).extract_functions = [] := by
  refine ⟨fun b => rfl, fun path code b => ?_, ?_⟩
  · simp [CodeAnalyzer.extract_functions, Node.walk, Node.walkAux_cons,
      Node.children, CodeAnalyzer.recordOfNode, List.filterMap_cons]
  · simp [CodeAnalyzer.extract_functions, analyzerOn, lambdaOnlyTree,
      Node.walk, Node.walkAux_cons, Node.walkAux_nil, Node.children,
      CodeAnalyzer.recordOfNode, List.filterMap_cons]

